import Mathlib

/-!
Shallow embedding of the `react-renderless` library
(`src/StateProvider.js` and `src/withRender.js`).

JavaScript runtime values are modelled by the inductive `JSVal`; plain
objects are association lists in insertion order, where a later entry for
the same key shadows an earlier one, exactly as repeated keys and spreads
behave in a JS object literal.  Function values carry only an identity tag
(`fn id`), since the library never inspects a renderer or handler beyond
passing it around, and referential identity is what the claims are about.
-/

inductive JSVal where
  | undefined
  | null
  | nan
  | bool (b : Bool)
  | num (n : Int)
  | str (s : String)
  | fn (id : Nat)
  | obj (fields : List (String × JSVal))

/-- A JS plain object: fields in insertion order, later entries shadow
earlier ones on the same key. -/
abbrev Obj := List (String × JSVal)

/-- JS truthiness: `undefined`, `null`, `NaN`, `false`, `0` and `""` are
falsy; every function and every object (including the empty object) is
truthy. -/
def truthy : JSVal → Bool
  | .undefined => false
  | .null => false
  | .nan => false
  | .bool b => b
  | .num n => n != 0
  | .str s => s != ""
  | .fn _ => true
  | .obj _ => true

/-- Last binding for a key, if any: the JS semantics of property lookup on
an object literal with (possibly) repeated keys. -/
def findLast? : Obj → String → Option JSVal
  | [], _ => none
  | (k', v) :: rest, k =>
    match findLast? rest k with
    | some v' => some v'
    | none => if k' = k then some v else none

/-- JS property access `o[k]`: the stored value, or `undefined` when the
key is absent. -/
def getProp (o : Obj) (k : String) : JSVal :=
  (findLast? o k).getD .undefined

/-- Whether the object has an own property named `k`. -/
def hasKey (o : Obj) (k : String) : Bool :=
  (findLast? o k).isSome

/-- Property access on an arbitrary value (used for destructuring a
handler's payload): only objects yield fields. -/
def getMember (v : JSVal) (k : String) : JSVal :=
  match v with
  | .obj fs => getProp fs k
  | _ => .undefined

/-- Fields contributed by `...v` inside an object literal: an object
contributes its fields, a string its index-to-character map, every other
primitive contributes nothing. -/
def spreadFields : JSVal → Obj
  | .obj fs => fs
  | .str s => s.toList.enum.map (fun p => (toString p.1, JSVal.str (String.mk [p.2])))
  | _ => []

/-- Drop every binding whose key is in `ks` (models object-destructuring
rest syntax `const \x7b a, b, ...rest \x7d = o`). -/
def removeKeys : Obj → List String → Obj
  | [], _ => []
  | (k, v) :: rest, ks =>
    if ks.contains k then removeKeys rest ks
    else (k, v) :: removeKeys rest ks

example : truthy (.obj []) = true := rfl
example : getProp [("a", .num 1), ("a", .num 2)] "a" = .num 2 := rfl
example : removeKeys [("a", .num 1), ("b", .num 2)] ["a"] = [("b", .num 2)] := rfl

/-!
### StateProvider (`src/StateProvider.js`)

A subclass of `StateProvider` is determined by the two getters it may
override, `initialState` and `handlers` (`defaultRender` is never
overridden in the repository; the base method returns `null`).  A
`ContainerType` records those two getters: `initialStateGetter` is the
object returned by `get initialState()` (base class: `\x7b\x7d`) and
`handlersGetter` the object returned by `get handlers()` (base class:
`\x7b\x7d`), whose values are the handler function identities.
-/

structure ContainerType where
  initialStateGetter : Obj
  handlersGetter : Obj

/-- The base `StateProvider` class itself: both getters return `\x7b\x7d`. -/
def StateProviderBase : ContainerType := ⟨[], []⟩

/-- A mounted container instance: the constructor stored `this.state` and
`this._handlers`; `this.props` is what the host passed in. -/
structure Instance where
  ctype : ContainerType
  props : Obj
  state : JSVal
  handlers : Obj

/-- The constructor:
`this.state = props.initialState || this.initialState` and
`this._handlers = this.handlers` (the getter, called once). -/
def construct (C : ContainerType) (props : Obj) : Instance :=
  { ctype := C
    props := props
    state := if truthy (getProp props "initialState")
             then getProp props "initialState"
             else JSVal.obj C.initialStateGetter
    handlers := C.handlersGetter }

/-- The fields `...this.state` contributes to the merged payload. -/
def stateFields (inst : Instance) : Obj := spreadFields inst.state

/-- The call `this.setState(partialState)`: React shallow-merges the partial state
into the current state (and schedules a re-render, which does not change
the instance fields modelled here). -/
def requestMutation (inst : Instance) (patch : Obj) : Instance :=
  { inst with state := JSVal.obj (stateFields inst ++ patch) }

/-- The call `this.setState(updater)` with a functional updater: React applies the
updater to the current state and shallow-merges the result. -/
def setStateUpd (inst : Instance) (f : Obj → Obj) : Instance :=
  requestMutation inst (f (stateFields inst))

/-- The three prop names destructured away in `render()`:
`const \x7b children, render: renderProp, initialState, ...otherProps \x7d = this.props`. -/
def reservedNames : List String := ["children", "render", "initialState"]

/-- The rest object `...otherProps`: every prop except the three reserved names. -/
def otherProps (props : Obj) : Obj := removeKeys props reservedNames

/-- The object passed to the renderer:
`\x7b ...otherProps, ...this.state, ...this._handlers \x7d`. -/
def mergedPayload (inst : Instance) : Obj :=
  otherProps inst.props ++ stateFields inst ++ inst.handlers

/-- The renderer picked by `children || renderProp || this.defaultRender`:
either a prop-supplied value (the first truthy of `children`, `renderProp`)
or the instance's `defaultRender` method (a function, hence truthy). -/
inductive RenderTarget where
  | val (f : JSVal)
  | defaultRender

def resolveRenderer (props : Obj) : RenderTarget :=
  let c := getProp props "children"
  let r := getProp props "render"
  if truthy c then .val c
  else if truthy r then .val r
  else .defaultRender

/-- The base class method `defaultRender() \x7b return null \x7d` (invoked as
`renderer(payload, context)`; it ignores its arguments). -/
def defaultRender (_payload : Obj) (_ctx : JSVal) : JSVal := .null

/-- One observable render: which renderer `render()` resolved, and the
merged payload it is invoked with.  The renderer itself is an opaque
external function, so the call — not its result — is the observable. -/
structure RenderCall where
  target : RenderTarget
  payload : Obj

/-- The method `render()` on an instance: resolve the renderer and build the payload. -/
def renderResult (inst : Instance) : RenderCall :=
  ⟨resolveRenderer inst.props, mergedPayload inst⟩

/-!
### withRender (`src/withRender.js`)

`withRender(Container, Presenter)` either returns
`withRender.bind(undefined, Container)` when `Presenter` is falsy, or the
component `props => <Container render=\x7bPresenter\x7d \x7b...props\x7d />`.
The `displayName` assignment is diagnostic only and carries no behavior,
so it is not modelled.
-/

inductive WithRenderResult where
  | factory (container : ContainerType)
  | combined (container : ContainerType) (presenter : JSVal)

def withRender (Container : ContainerType) (Presenter : JSVal) : WithRenderResult :=
  if truthy Presenter then .combined Container Presenter
  else .factory Container

/-- Calling the value returned by `withRender` with one more argument.  A
factory is `withRender.bind(undefined, Container)`, so applying it to `P`
is exactly `withRender Container P`; a combined component is applied to
props, not to a presenter. -/
def applyFactory : WithRenderResult → JSVal → Option WithRenderResult
  | .factory C, P => some (withRender C P)
  | .combined _ _, _ => none

/-- The props object built by the JSX `<Container render=\x7bPresenter\x7d
\x7b...props\x7d />`: the literal key `render` first, then the spread —
so a `render` key inside `props` shadows the presenter. -/
def combinedProps (P : JSVal) (props : Obj) : Obj :=
  ("render", P) :: props

/-- Mounting and rendering `Combined(props)`. -/
def combinedRender (C : ContainerType) (P : JSVal) (props : Obj) : RenderCall :=
  renderResult (construct C (combinedProps P props))

/-- Manually constructing the container with `render` forced to the
presenter and all other props passed through (the comparison point named
by the specification). -/
def forceRender (P : JSVal) (props : Obj) : Obj :=
  removeKeys props ["render"] ++ [("render", P)]

/-- Rendering the result of a (possibly curried) `withRender` application
with a props object. -/
def renderOf : Option WithRenderResult → Obj → Option RenderCall
  | some (.combined C P), props => some (combinedRender C P props)
  | _, _ => none

example : withRender StateProviderBase (.fn 1)
    = .combined StateProviderBase (.fn 1) := rfl
example : withRender StateProviderBase .undefined = .factory StateProviderBase := rfl
example : combinedRender StateProviderBase (.fn 1) []
    = ⟨.val (.fn 1), []⟩ := rfl
example : combinedRender StateProviderBase (.fn 1) [("render", .fn 2)]
    = ⟨.val (.fn 2), []⟩ := rfl

/-!
### The `Reducer` example container (README code embedded in
`src/StateProvider.js`)

```
class Reducer extends StateProvider \x7b
  get handlers() \x7b
    const reducer = \x7b
      "foo:update": (\x7b foo \x7d) => (\x7b foo: foo \x7d),
      "bar:inc": () => (\x7b bar \x7d) => (\x7b bar: bar + 1 \x7d),
      "bar:dec": () => (\x7b bar \x7d) => (\x7b bar: bar - 1 \x7d)
    \x7d;
    return \x7b
      action: (type, payload) => \x7b
        if (!reducer[type]) return this.setState(\x7b\x7d);
        this.setState(reducer[type](payload));
      \x7d
    \x7d;
  \x7d
\x7d
```
-/

/-- JS `+`/`-` on a state field: numeric on numbers, `NaN`-producing
otherwise (the example only ever adds to a number). -/
def jsAdd (a : JSVal) (d : Int) : JSVal :=
  match a with
  | .num n => .num (n + d)
  | _ => .nan

/-- The effect of the Reducer's `action(type, payload)` handler on the
instance.  `"foo:update"` merges `\x7b foo: payload.foo \x7d`; the two
`bar` actions pass a functional updater to `setState`; any other type hits
`this.setState(\x7b\x7d)`, the empty merge. -/
def reducerAction (inst : Instance) (type : String) (payload : JSVal) : Instance :=
  if type = "foo:update" then
    requestMutation inst [("foo", getMember payload "foo")]
  else if type = "bar:inc" then
    setStateUpd inst (fun s => [("bar", jsAdd (getProp s "bar") 1)])
  else if type = "bar:dec" then
    setStateUpd inst (fun s => [("bar", jsAdd (getProp s "bar") (-1))])
  else
    requestMutation inst []

/-!
### Operation traces

A mounted instance only ever experiences two kinds of events: the host
calls `render()`, or a handler calls `setState`.  `runOps` threads the
instance through a list of such events, collecting the render calls.
-/

inductive Op where
  | render
  | mutate (patch : Obj)

def runOps : Instance → List Op → Instance × List RenderCall
  | inst, [] => (inst, [])
  | inst, .render :: rest =>
    let r := runOps inst rest
    (r.1, renderResult inst :: r.2)
  | inst, .mutate p :: rest => runOps (requestMutation inst p) rest

example :
    (runOps (construct StateProviderBase []) [.mutate [("a", .num 1)], .render]).2
      = [⟨.defaultRender, [("a", .num 1)]⟩] := rfl

/-!
### Lookup lemmas
-/

theorem findLast_append (a b : Obj) (k : String) :
    findLast? (a ++ b) k =
      match findLast? b k with
      | some v => some v
      | none => findLast? a k := by
  induction a with
  | nil =>
    simp only [List.nil_append, findLast?]
    cases findLast? b k <;> rfl
  | cons p rest ih =>
    obtain ⟨k', v⟩ := p
    show (match findLast? (rest ++ b) k with
          | some v' => some v'
          | none => if k' = k then some v else none) =
        match findLast? b k with
        | some w => some w
        | none =>
          match findLast? rest k with
          | some v' => some v'
          | none => if k' = k then some v else none
    rw [ih]
    cases findLast? b k with
    | none => cases findLast? rest k <;> rfl
    | some w => rfl

theorem getProp_append (a b : Obj) (k : String) :
    getProp (a ++ b) k = if hasKey b k then getProp b k else getProp a k := by
  simp only [getProp, hasKey, findLast_append]
  cases findLast? b k <;> simp

theorem hasKey_append (a b : Obj) (k : String) :
    hasKey (a ++ b) k = (hasKey a k || hasKey b k) := by
  simp only [hasKey, findLast_append]
  cases findLast? b k <;> cases findLast? a k <;> simp

theorem findLast_cons_ne (k' : String) (v : JSVal) (o : Obj) (k : String)
    (h : k' ≠ k) : findLast? ((k', v) :: o) k = findLast? o k := by
  simp only [findLast?]
  cases findLast? o k with
  | none => simp [h]
  | some w => rfl

theorem getProp_cons_ne (k' : String) (v : JSVal) (o : Obj) (k : String)
    (h : k' ≠ k) : getProp ((k', v) :: o) k = getProp o k := by
  simp [getProp, findLast_cons_ne _ _ _ _ h]

theorem findLast_removeKeys_not_mem (o : Obj) (ks : List String) (k : String)
    (h : k ∉ ks) : findLast? (removeKeys o ks) k = findLast? o k := by
  induction o with
  | nil => rfl
  | cons p rest ih =>
    obtain ⟨k', v⟩ := p
    by_cases hk : ks.contains k' = true
    · have hne : k' ≠ k := by
        intro he; subst he; exact h (by simpa using hk)
      rw [removeKeys, if_pos hk, ih, findLast_cons_ne _ _ _ _ hne]
    · rw [removeKeys, if_neg hk, findLast?, findLast?, ih]

theorem getProp_removeKeys_not_mem (o : Obj) (ks : List String) (k : String)
    (h : k ∉ ks) : getProp (removeKeys o ks) k = getProp o k := by
  simp [getProp, findLast_removeKeys_not_mem _ _ _ h]

theorem findLast_removeKeys_mem (o : Obj) (ks : List String) (k : String)
    (h : k ∈ ks) : findLast? (removeKeys o ks) k = none := by
  induction o with
  | nil => rfl
  | cons p rest ih =>
    obtain ⟨k', v⟩ := p
    by_cases hk : ks.contains k' = true
    · rw [removeKeys, if_pos hk]; exact ih
    · have hne : k' ≠ k := by
        intro he; subst he; exact hk (by simpa using h)
      rw [removeKeys, if_neg hk, findLast_cons_ne _ _ _ _ hne]
      exact ih

/-!
### Claim theorems
-/

/-- C1: the object passed to the resolved rendering function equals the
shallow merge of the passthrough props (props minus `children`, `render`,
`initialState`), then the current state, then the stored handlers, in that
order: on any key collision the handler value overrides the state value,
which overrides the passthrough prop value. -/
theorem merged_payload_collision_order (inst : Instance) (k : String) :
    getProp (mergedPayload inst) k =
      if hasKey inst.handlers k then getProp inst.handlers k
      else if hasKey (stateFields inst) k then getProp (stateFields inst) k
      else if k ∈ reservedNames then JSVal.undefined
      else getProp inst.props k := by
  show getProp (otherProps inst.props ++ stateFields inst ++ inst.handlers) k = _
  rw [getProp_append, getProp_append]
  by_cases h1 : hasKey inst.handlers k = true
  · simp [h1]
  · by_cases h2 : hasKey (stateFields inst) k = true
    · simp [h1, h2]
    · simp only [h1, h2, if_false]
      by_cases hm : k ∈ reservedNames
      · simp [hm, otherProps, getProp, findLast_removeKeys_mem _ _ _ hm]
      · simp [hm, otherProps, getProp_removeKeys_not_mem _ _ _ hm]

/-- C9: calling `withRender` with an explicitly present falsy presenter
(`null`, `false`, `0`, `""`, like an omitted/`undefined` one) takes the
factory branch: the result equals `withRender(Container)` and is never a
combined component — dispatch is by falsiness of the second argument, not
by argument count. -/
theorem withRender_falsy_presenter_factory (C : ContainerType) (P : JSVal)
    (h : truthy P = false) :
    withRender C P = withRender C JSVal.undefined
    ∧ withRender C P = WithRenderResult.factory C
    ∧ ∀ C' P', withRender C P ≠ WithRenderResult.combined C' P' := by
  refine ⟨?_, ?_, ?_⟩ <;> rw [withRender, h]
  · rfl
  · rfl
  · simp

theorem withRender_falsy_presenter_factory_witness :
    withRender StateProviderBase JSVal.null = withRender StateProviderBase JSVal.undefined
    ∧ withRender StateProviderBase (JSVal.num 0) = WithRenderResult.factory StateProviderBase :=
  ⟨(withRender_falsy_presenter_factory StateProviderBase JSVal.null rfl).1,
   (withRender_falsy_presenter_factory StateProviderBase (JSVal.num 0) rfl).2.1⟩

/-- C10: for a component composed by `withRender(Container, Presenter)`,
a caller-supplied `children` function in the input props overrides the
bound presenter: the render target resolves to the caller's `children`
value, not to the presenter fixed at composition time. -/
theorem children_beats_bound_presenter (P : JSVal) (props : Obj)
    (h : truthy (getProp props "children") = true) :
    resolveRenderer (combinedProps P props) = RenderTarget.val (getProp props "children")
    ∧ (getProp props "children" ≠ P →
        resolveRenderer (combinedProps P props) ≠ RenderTarget.val P) := by
  have hc : getProp (combinedProps P props) "children" = getProp props "children" :=
    getProp_cons_ne _ _ _ _ (by decide)
  have h1 : resolveRenderer (combinedProps P props)
      = RenderTarget.val (getProp props "children") := by
    simp [resolveRenderer, hc, h]
  refine ⟨h1, fun hne heq => ?_⟩
  rw [h1] at heq
  exact hne (by injection heq)

theorem children_beats_bound_presenter_witness :
    resolveRenderer (combinedProps (JSVal.fn 1) [("children", JSVal.fn 3)])
      = RenderTarget.val (JSVal.fn 3) :=
  (children_beats_bound_presenter (JSVal.fn 1) [("children", JSVal.fn 3)] rfl).1

/-- C5: `render()` resolves its target in the priority order `children`,
then the `render` prop, then the type's `defaultRender`; with neither
`children` nor `render` supplied the call does not fail but resolves to
`defaultRender`, which returns `null` (empty output). -/
theorem render_target_priority (inst : Instance) (ctx : JSVal) :
    (truthy (getProp inst.props "children") = true →
      (renderResult inst).target = RenderTarget.val (getProp inst.props "children"))
    ∧ (truthy (getProp inst.props "children") = false →
        truthy (getProp inst.props "render") = true →
        (renderResult inst).target = RenderTarget.val (getProp inst.props "render"))
    ∧ (truthy (getProp inst.props "children") = false →
        truthy (getProp inst.props "render") = false →
        (renderResult inst).target = RenderTarget.defaultRender
        ∧ defaultRender (mergedPayload inst) ctx = JSVal.null) :=
  ⟨fun h => by simp [renderResult, resolveRenderer, h],
   fun h1 h2 => by simp [renderResult, resolveRenderer, h1, h2],
   fun h1 h2 => ⟨by simp [renderResult, resolveRenderer, h1, h2], rfl⟩⟩

theorem render_target_priority_witness :
    (renderResult (construct StateProviderBase [])).target = RenderTarget.defaultRender
    ∧ defaultRender (mergedPayload (construct StateProviderBase [])) JSVal.undefined
        = JSVal.null :=
  (render_target_priority (construct StateProviderBase []) JSVal.undefined).2.2 rfl rfl

/-- C6: `withRender(Container)` returns a factory; applying that factory
to a presenter performs exactly the composition `withRender(Container,
Presenter)`, so for every props object both composed components render the
same result. -/
theorem withRender_curry_equiv (C : ContainerType) (P : JSVal) (props : Obj) :
    withRender C JSVal.undefined = WithRenderResult.factory C
    ∧ applyFactory (withRender C JSVal.undefined) P = some (withRender C P)
    ∧ renderOf (applyFactory (withRender C JSVal.undefined) P) props
        = renderOf (some (withRender C P)) props :=
  ⟨rfl, rfl, rfl⟩

theorem runOps_renders (inst : Instance) (n : Nat) :
    runOps inst (List.replicate n Op.render)
      = (inst, List.replicate n (renderResult inst)) := by
  induction n with
  | zero => rfl
  | succ m ih => simp [List.replicate, runOps, ih]

/-- C4: the handler mapping is computed once, by the constructor, and
stored in `this._handlers`; rendering any number of times leaves the
instance — in particular the identity of every stored handler — unchanged. -/
theorem handlers_computed_once (C : ContainerType) (props : Obj) (n : Nat) :
    (construct C props).handlers = C.handlersGetter
    ∧ ((runOps (construct C props) (List.replicate n Op.render)).1).handlers
        = (construct C props).handlers := by
  refine ⟨rfl, ?_⟩
  rw [runOps_renders]

/-- C8: two consecutive renders with no intervening mutation produce the
same render call, so the payload objects are value-equal (each render
rebuilds the payload afresh from the same props, state and handlers). -/
theorem consecutive_renders_value_equal (inst : Instance) :
    (runOps inst [Op.render, Op.render]).2 = [renderResult inst, renderResult inst]
    ∧ (runOps inst [Op.render, Op.render]).2.map RenderCall.payload
        = [mergedPayload inst, mergedPayload inst] :=
  ⟨rfl, rfl⟩

/-- C7: `setState(\x7bk: v\x7d)` shallow-merges into the current state —
key `k` maps to `v` afterwards and every other key keeps its previous
value — and the Reducer example's `action` handler performs the empty
merge `setState(\x7b\x7d)` on an unrecognized type, leaving the state
value-unchanged. -/
theorem requestMutation_shallow_merge (inst : Instance) (k k' : String) (v : JSVal)
    (t : String) (payload : JSVal)
    (hk : k' ≠ k)
    (ht : t ∉ (["foo:update", "bar:inc", "bar:dec"] : List String)) :
    getProp (stateFields (requestMutation inst [(k, v)])) k = v
    ∧ getProp (stateFields (requestMutation inst [(k, v)])) k'
        = getProp (stateFields inst) k'
    ∧ stateFields (reducerAction inst t payload) = stateFields inst := by
  have ht1 : ¬(t = "foo:update") := fun he => ht (by simp [he])
  have ht2 : ¬(t = "bar:inc") := fun he => ht (by simp [he])
  have ht3 : ¬(t = "bar:dec") := fun he => ht (by simp [he])
  refine ⟨?_, ?_, ?_⟩
  · rw [show stateFields (requestMutation inst [(k, v)])
        = stateFields inst ++ [(k, v)] from rfl, getProp_append]
    simp [hasKey, findLast?, getProp]
  · rw [show stateFields (requestMutation inst [(k, v)])
        = stateFields inst ++ [(k, v)] from rfl, getProp_append]
    simp [hasKey, findLast?, Ne.symm hk]
  · rw [reducerAction, if_neg ht1, if_neg ht2, if_neg ht3]
    simp [stateFields, requestMutation, spreadFields]

theorem requestMutation_shallow_merge_witness :
    getProp (stateFields (requestMutation (construct StateProviderBase [])
        [("a", JSVal.num 1)])) "a" = JSVal.num 1
    ∧ getProp (stateFields (requestMutation (construct StateProviderBase [])
        [("a", JSVal.num 1)])) "b"
        = getProp (stateFields (construct StateProviderBase [])) "b"
    ∧ stateFields (reducerAction (construct StateProviderBase [])
        "unknown:action" JSVal.undefined)
        = stateFields (construct StateProviderBase []) :=
  requestMutation_shallow_merge (construct StateProviderBase []) "a" "b" (JSVal.num 1)
    "unknown:action" JSVal.undefined (by decide) (by decide)

/-- The specification's construction-state rule, formalised from its own
wording: the `initialState` input is used when it is *present and
non-empty* (a supplied mapping with at least one key); *otherwise* the
container type's default-state value is used. -/
def initialStatePresentNonEmpty (props : Obj) : Bool :=
  hasKey props "initialState" &&
    match getProp props "initialState" with
    | .obj fs => !fs.isEmpty
    | .undefined => false
    | .null => false
    | _ => true

/-- C3 as stated: state comes from a present-and-non-empty `initialState`
input, and otherwise from the type's default. -/
def constructionStateClaim (C : ContainerType) (props : Obj) : Prop :=
  if initialStatePresentNonEmpty props
  then (construct C props).state = getProp props "initialState"
  else (construct C props).state = JSVal.obj C.initialStateGetter

/-- A container type overriding the default state with `\x7b a: 1 \x7d`
(like `SimpleState`/`UpperText` in the README). -/
def DefaultedContainer : ContainerType := ⟨[("a", JSVal.num 1)], []⟩

/-- C3 counterexample: pass `initialState = \x7b\x7d` — present but empty —
to a container whose default state is `\x7b a: 1 \x7d`.  The claim requires
the default; the code keeps the empty object, because any object is truthy
in `props.initialState || this.initialState`. -/
theorem construct_state_claim_cex :
    (construct DefaultedContainer [("initialState", JSVal.obj [])]).state = JSVal.obj []
    ∧ ¬ constructionStateClaim DefaultedContainer [("initialState", JSVal.obj [])] := by
  refine ⟨rfl, fun h => ?_⟩
  have hb : initialStatePresentNonEmpty [("initialState", JSVal.obj [])] = false := rfl
  rw [constructionStateClaim, hb] at h
  simp only [if_false, Bool.false_eq_true] at h
  have h2 : (construct DefaultedContainer [("initialState", JSVal.obj [])]).state
      = JSVal.obj [] := rfl
  rw [h2] at h
  simp [DefaultedContainer] at h

/-- C3 (amended): construction sets the state to the `initialState` input
whenever it is truthy — which any supplied mapping is, including the empty
one — and otherwise (absent, or a falsy value) to the container type's
default-state value; in particular, with no `initialState` input and no
default override the state is the empty mapping, and a supplied mapping
`S` always wins over a default override. -/
theorem construct_state_priority (C : ContainerType) (props : Obj) (S : Obj) :
    (truthy (getProp props "initialState") = true →
      (construct C props).state = getProp props "initialState")
    ∧ (truthy (getProp props "initialState") = false →
      (construct C props).state = JSVal.obj C.initialStateGetter)
    ∧ (getProp props "initialState" = JSVal.obj S →
      (construct C props).state = JSVal.obj S)
    ∧ (hasKey props "initialState" = false → C.initialStateGetter = [] →
      (construct C props).state = JSVal.obj []) := by
  refine ⟨fun h => by simp [construct, h],
    fun h => by simp [construct, h],
    fun h => by simp [construct, h, truthy],
    fun h1 h2 => ?_⟩
  have hn : findLast? props "initialState" = none := by
    cases hf : findLast? props "initialState" with
    | none => rfl
    | some w => simp [hasKey, hf] at h1
  simp [construct, getProp, hn, truthy, h2]

theorem construct_state_priority_witness :
    (construct DefaultedContainer
        [("initialState", JSVal.obj [("foo", JSVal.str "baz")])]).state
      = JSVal.obj [("foo", JSVal.str "baz")]
    ∧ (construct StateProviderBase []).state = JSVal.obj [] :=
  ⟨(construct_state_priority DefaultedContainer
      [("initialState", JSVal.obj [("foo", JSVal.str "baz")])]
      [("foo", JSVal.str "baz")]).2.2.1 rfl,
   (construct_state_priority StateProviderBase [] []).2.2.2 rfl rfl⟩

theorem removeKeys_append (a b : Obj) (ks : List String) :
    removeKeys (a ++ b) ks = removeKeys a ks ++ removeKeys b ks := by
  induction a with
  | nil => rfl
  | cons p rest ih =>
    obtain ⟨k', v⟩ := p
    by_cases hk : k' ∈ ks <;> simp [removeKeys, hk, ih]

theorem removeKeys_sub (o : Obj) (k : String) (ks : List String) (h : k ∈ ks) :
    removeKeys (removeKeys o [k]) ks = removeKeys o ks := by
  induction o with
  | nil => rfl
  | cons p rest ih =>
    obtain ⟨k', v⟩ := p
    by_cases h1 : k' = k
    · subst h1
      simp [removeKeys, h, ih]
    · by_cases h3 : k' ∈ ks <;> simp [removeKeys, h1, h3, ih]

/-- C2 counterexample: pass `render: fn2` in the input props of a
component composed with presenter `fn1`.  In
`<Container render=\x7bPresenter\x7d \x7b...props\x7d />` the spread comes
after the `render` attribute, so the caller's `render` wins: the resolved
target is `fn2`, and the composed component renders differently from a
container whose `render` is forced to the presenter `fn1`. -/
theorem withRender_render_prop_override_cex :
    resolveRenderer (combinedProps (JSVal.fn 1) [("render", JSVal.fn 2)])
      = RenderTarget.val (JSVal.fn 2)
    ∧ combinedRender StateProviderBase (JSVal.fn 1) [("render", JSVal.fn 2)]
        ≠ renderResult (construct StateProviderBase
            (forceRender (JSVal.fn 1) [("render", JSVal.fn 2)])) := by
  refine ⟨rfl, fun h => ?_⟩
  have h1 : combinedRender StateProviderBase (JSVal.fn 1) [("render", JSVal.fn 2)]
      = ⟨RenderTarget.val (JSVal.fn 2), []⟩ := rfl
  have h2 : renderResult (construct StateProviderBase
        (forceRender (JSVal.fn 1) [("render", JSVal.fn 2)]))
      = ⟨RenderTarget.val (JSVal.fn 1), []⟩ := rfl
  rw [h1, h2] at h
  simp at h

/-- C2 (amended): `withRender(Container, Presenter)` with a truthy
presenter returns the composed component, whose JSX makes the presenter
the *default* `render` target (a `render` key in the input props overrides
it); whenever the input props carry no `render` key, the composed
component renders identically to manually constructing the container with
`render` forced to the presenter and all other props passed through. -/
theorem withRender_composes_presenter (C : ContainerType) (P : JSVal) (props : Obj)
    (hP : truthy P = true) (hr : hasKey props "render" = false) :
    withRender C P = WithRenderResult.combined C P
    ∧ combinedRender C P props = renderResult (construct C (forceRender P props)) := by
  constructor
  · simp [withRender, hP]
  · have hrn : findLast? props "render" = none := by
      cases hf : findLast? props "render" with
      | none => rfl
      | some w => simp [hasKey, hf] at hr
    have hrL : getProp (combinedProps P props) "render" = P := by
      simp [combinedProps, getProp, findLast?, hrn]
    have hgen : ∀ k, k ≠ "render" → getProp (forceRender P props) k = getProp props k := by
      intro k hknr
      rw [forceRender, getProp_append]
      have hb : hasKey [("render", P)] k = false := by
        simp [hasKey, findLast?, Ne.symm hknr]
      rw [hb]
      simp only [Bool.false_eq_true, if_false]
      exact getProp_removeKeys_not_mem _ _ _ (by simp [hknr])
    have hrR : getProp (forceRender P props) "render" = P := by
      rw [forceRender, getProp_append]
      have hb : hasKey [("render", P)] "render" = true := rfl
      rw [hb]
      rfl
    have hcL : getProp (combinedProps P props) "children" = getProp props "children" :=
      getProp_cons_ne _ _ _ _ (by decide)
    have hcR : getProp (forceRender P props) "children" = getProp props "children" :=
      hgen "children" (by decide)
    have hiL : getProp (combinedProps P props) "initialState"
        = getProp props "initialState" :=
      getProp_cons_ne _ _ _ _ (by decide)
    have hiR : getProp (forceRender P props) "initialState"
        = getProp props "initialState" :=
      hgen "initialState" (by decide)
    have htarget : resolveRenderer (combinedProps P props)
        = resolveRenderer (forceRender P props) := by
      simp only [resolveRenderer, hcL, hcR, hrL, hrR]
    have hoL : otherProps (combinedProps P props) = otherProps props := rfl
    have hoR : otherProps (forceRender P props) = otherProps props := by
      rw [forceRender, otherProps, removeKeys_append,
        removeKeys_sub props "render" reservedNames (by decide)]
      show removeKeys props reservedNames ++ [] = otherProps props
      simp [otherProps]
    have hstate : (construct C (combinedProps P props)).state
        = (construct C (forceRender P props)).state := by
      simp [construct, hiL, hiR]
    have hpayload : mergedPayload (construct C (combinedProps P props))
        = mergedPayload (construct C (forceRender P props)) := by
      show otherProps (combinedProps P props)
          ++ spreadFields (construct C (combinedProps P props)).state
          ++ C.handlersGetter
        = otherProps (forceRender P props)
          ++ spreadFields (construct C (forceRender P props)).state
          ++ C.handlersGetter
      rw [hoL, hoR, hstate]
    show (⟨resolveRenderer (combinedProps P props),
            mergedPayload (construct C (combinedProps P props))⟩ : RenderCall)
        = ⟨resolveRenderer (forceRender P props),
            mergedPayload (construct C (forceRender P props))⟩
    rw [htarget, hpayload]

theorem withRender_composes_presenter_witness :
    withRender StateProviderBase (JSVal.fn 1)
      = WithRenderResult.combined StateProviderBase (JSVal.fn 1)
    ∧ combinedRender StateProviderBase (JSVal.fn 1) [("x", JSVal.num 2)]
        = renderResult (construct StateProviderBase
            (forceRender (JSVal.fn 1) [("x", JSVal.num 2)])) :=
  withRender_composes_presenter StateProviderBase (JSVal.fn 1) [("x", JSVal.num 2)] rfl rfl
